import Mathlib

/-!
Shallow embedding of the MonkeySkript collaboration server (src/server.js).

The server keeps three SQLite tables (rooms, files, presence) and an in-memory
registry of SSE subscriber channels per room.  We model the database rows as
Lean structures, the whole server as a `ServerState`, each prepared SQL
statement (`stmts.*` in server.js) as a pure function on that state, and each
Express route handler as a function returning a response tag, the updated
state, and the list of SSE deliveries it performed.  Timestamps are `Int`
seconds (SQLite `strftime('%s','now')` values), passed explicitly.
-/

namespace MonkeySkript

/-- A row of the `files` table: room id, filename, content and the
`updated_at` timestamp (unix seconds). -/
structure FileRec where
  roomId : String
  filename : String
  content : String
  updatedAt : Int
deriving Repr, DecidableEq

/-- A row of the `presence` table: room id, user name, color, the file being
edited and the `last_seen` timestamp. -/
structure PresenceRec where
  roomId : String
  userName : String
  userColor : String
  editingFile : String
  lastSeen : Int
deriving Repr, DecidableEq

/-- An in-memory SSE subscriber as stored in `roomClients`: the room it
subscribed to, its user name, and an identifier standing for the `res`
response channel. -/
structure Subscriber where
  roomId : String
  userName : String
  channel : Nat
deriving Repr, DecidableEq

/-- The whole server state: the `rooms` table (ids only), the `files` and
`presence` tables, and the in-memory subscriber registry. -/
structure ServerState where
  rooms : List String
  files : List FileRec
  presence : List PresenceRec
  clients : List Subscriber
deriving Repr, DecidableEq

/-- Room-id canonicalization applied at every route entry point
(`req.params.id.toUpperCase()` in server.js). -/
def canon (s : String) : String := String.mk (s.data.map Char.toUpper)

/-- JavaScript `a || d` for an optional string field: `undefined` and the
empty string are falsy and replaced by the default. -/
def jsOr (s : Option String) (d : String) : String :=
  match s with
  | none => d
  | some v => if v = "" then d else v

/-- The `WHERE room_id = ? AND filename = ?` key predicate on a file row. -/
def matchKey (room fn : String) (f : FileRec) : Bool :=
  f.roomId == room && f.filename == fn

/-- The `WHERE room_id = ? AND user_name = ?` key predicate on a presence
row. -/
def matchUser (room user : String) (p : PresenceRec) : Bool :=
  p.roomId == room && p.userName == user

/-- The presence TTL: `stmts.getPresence` keeps rows with
`last_seen > strftime('%s','now') - 15`. -/
def presenceTTL : Int := 15

/-- The `stmts.roomExists` query: `SELECT id FROM rooms WHERE id = ?`. -/
def roomExists (st : ServerState) (id : String) : Bool :=
  st.rooms.contains id

/-- The `stmts.createRoom` statement: `INSERT OR IGNORE INTO rooms`. -/
def createRoom (st : ServerState) (id : String) : ServerState :=
  if st.rooms.contains id then st else { st with rooms := st.rooms ++ [id] }

/-- The `stmts.upsertFile` statement on the raw row list:
`INSERT ... ON CONFLICT(room_id, filename) DO UPDATE SET
content = excluded.content, updated_at = excluded.updated_at`, where the
inserted row carries `updated_at = strftime('%s','now')`. -/
def upsertRows (rows : List FileRec) (room fn content : String) (now : Int) :
    List FileRec :=
  if rows.any (matchKey room fn) then
    rows.map fun f =>
      if matchKey room fn f then { f with content := content, updatedAt := now }
      else f
  else rows ++ [{ roomId := room, filename := fn, content := content, updatedAt := now }]

/-- The `stmts.upsertFile` statement lifted to the server state. -/
def upsertFile (st : ServerState) (room fn content : String) (now : Int) :
    ServerState :=
  { st with files := upsertRows st.files room fn content now }

/-- The `stmts.deleteFile` statement:
`DELETE FROM files WHERE room_id = ? AND filename = ?`. -/
def deleteFile (st : ServerState) (room fn : String) : ServerState :=
  { st with files := st.files.filter fun f => !matchKey room fn f }

/-- The `stmts.renameFile` statement:
`UPDATE files SET filename = ?, updated_at = now WHERE room_id = ? AND
filename = ?`.  SQLite aborts the statement with a UNIQUE-constraint error
when the update would produce a second row with the same (room_id, filename)
key, i.e. when a row named `oldName` exists and a distinct name `newName`
already exists in the same room; better-sqlite3 raises this as an exception. -/
def renameFile (st : ServerState) (room oldName newName : String) (now : Int) :
    Except String ServerState :=
  if st.files.any (matchKey room oldName) then
    if newName != oldName && st.files.any (matchKey room newName) then
      Except.error "UNIQUE constraint failed: files.room_id, files.filename"
    else
      Except.ok { st with files := st.files.map (fun f =>
        if matchKey room oldName f then { f with filename := newName, updatedAt := now }
        else f) }
  else Except.ok st

/-- The `stmts.upsertPresence` statement: insert with `last_seen = now`, on
conflict update `user_color`, `editing_file` and `last_seen = now`. -/
def upsertPresenceRows (rows : List PresenceRec)
    (room user color editing : String) (now : Int) : List PresenceRec :=
  if rows.any (matchUser room user) then
    rows.map fun p =>
      if matchUser room user p then
        { p with userColor := color, editingFile := editing, lastSeen := now }
      else p
  else rows ++ [{ roomId := room, userName := user, userColor := color,
                  editingFile := editing, lastSeen := now }]

/-- The `stmts.upsertPresence` statement lifted to the server state. -/
def upsertPresence (st : ServerState) (room user color editing : String)
    (now : Int) : ServerState :=
  { st with presence := upsertPresenceRows st.presence room user color editing now }

/-- The `stmts.deletePresence` statement. -/
def deletePresence (st : ServerState) (room user : String) : ServerState :=
  { st with presence := st.presence.filter fun p => !matchUser room user p }

/-- The row filter of `stmts.getPresence`:
`WHERE room_id = ? AND last_seen > strftime('%s','now') - 15`. -/
def livePresence (st : ServerState) (room : String) (now : Int) :
    List PresenceRec :=
  st.presence.filter fun p => p.roomId == room && now - presenceTTL < p.lastSeen

/-- The `stmts.getPresence` query result: the selected columns
`user_name, user_color, editing_file` of the live rows. -/
def getPresence (st : ServerState) (room : String) (now : Int) :
    List (String × String × String) :=
  (livePresence st room now).map fun p => (p.userName, p.userColor, p.editingFile)

/-- The `stmts.getRoomFiles` query followed by the handlers' fileMap
construction: the (filename, content) pairs of the room. -/
def listFiles (st : ServerState) (room : String) : List (String × String) :=
  (st.files.filter fun f => f.roomId == room).map fun f => (f.filename, f.content)

/-- The `getRoomClients` registry lookup: all subscribers of a room. -/
def getRoomClients (st : ServerState) (room : String) : List Subscriber :=
  st.clients.filter fun c => c.roomId == room

/-- The delivery set of `broadcast(roomId, senderUserName, ...)`: every
subscriber of the room except those whose `userName` strictly equals the
sender name (`client.userName === senderUserName` with a possibly-undefined
sender, modelled as `Option String`). -/
def broadcastTargets (st : ServerState) (room : String) (sender : Option String) :
    List Subscriber :=
  (getRoomClients st room).filter fun c => !(some c.userName == sender)

/-- The delivery set of `broadcastAll(roomId, ...)`: every subscriber of the
room, the originator included. -/
def broadcastAllTargets (st : ServerState) (room : String) : List Subscriber :=
  getRoomClients st room

/-- An SSE event as written to a subscriber channel. -/
inductive SseEvent where
  | initSnap (files : List (String × String))
  | presenceList (users : List (String × String × String))
  | fileUpdate (filename content : String)
  | fileDelete (filename : String)
  | fileRename (oldName newName : String)
deriving Repr, DecidableEq

/-- The HTTP outcome of a route handler: `200 {ok:true}` or a JSON body,
`404 {error:'Room not found'}`, or an uncaught exception surfaced by Express
as a 500 error. -/
inductive Resp where
  | ok
  | notFound
  | serverError
deriving Repr, DecidableEq

/-- The full outcome of a route handler: the HTTP response tag, the state
after the handler, and the SSE deliveries it performed, in order, as
(channel, event) pairs. -/
structure HandlerOut where
  resp : Resp
  state : ServerState
  log : List (Nat × SseEvent)
deriving Repr, DecidableEq

/-- The `POST /api/rooms/:id/files` handler: canonicalize the room id, 404
when the room does not exist, else upsert the file (`content || ''`) and
broadcast `file:update` to everyone in the room except the sender. -/
def postFileHandler (st : ServerState) (rawId fn : String)
    (content userName : Option String) (now : Int) : HandlerOut :=
  let roomId := canon rawId
  if roomExists st roomId then
    let c := jsOr content ""
    let st' := upsertFile st roomId fn c now
    { resp := Resp.ok, state := st',
      log := (broadcastTargets st' roomId userName).map
        fun cl => (cl.channel, SseEvent.fileUpdate fn c) }
  else { resp := Resp.notFound, state := st, log := [] }

/-- The `GET /api/rooms/:id/files` handler: 404 when the canonicalized room
id does not exist, else the filename-to-content mapping. -/
def listFilesHandler (st : ServerState) (rawId : String) :
    Resp × List (String × String) :=
  let roomId := canon rawId
  if roomExists st roomId then (Resp.ok, listFiles st roomId)
  else (Resp.notFound, [])

/-- The `DELETE /api/rooms/:id/files/:filename` handler: canonicalizes the
room id but performs no room-existence check; always deletes and responds
`{ok:true}`. -/
def deleteFileHandler (st : ServerState) (rawId fn : String)
    (userName : Option String) : HandlerOut :=
  let roomId := canon rawId
  let st' := deleteFile st roomId fn
  { resp := Resp.ok, state := st',
    log := (broadcastTargets st' roomId userName).map
      fun cl => (cl.channel, SseEvent.fileDelete fn) }

/-- The `POST /api/rooms/:id/files/:filename/rename` handler: canonicalizes
the room id but performs no room-existence check; on a UNIQUE-constraint
exception from the rename statement the handler has no catch, so Express
answers with a 500 error and neither broadcast nor `{ok:true}` happen. -/
def renameFileHandler (st : ServerState) (rawId oldName newName : String)
    (userName : Option String) (now : Int) : HandlerOut :=
  let roomId := canon rawId
  match renameFile st roomId oldName newName now with
  | Except.ok st' =>
      { resp := Resp.ok, state := st',
        log := (broadcastTargets st' roomId userName).map
          fun cl => (cl.channel, SseEvent.fileRename oldName newName) }
  | Except.error _ => { resp := Resp.serverError, state := st, log := [] }

/-- The `POST /api/rooms/:id/presence` handler: 404 when the canonicalized
room id does not exist, else upsert presence (`editingFile || ''`) and
broadcast the live presence list to everyone in the room, sender included. -/
def presenceHandler (st : ServerState) (rawId user color : String)
    (editing : Option String) (now : Int) : HandlerOut :=
  let roomId := canon rawId
  if roomExists st roomId then
    let st' := upsertPresence st roomId user color (jsOr editing "") now
    { resp := Resp.ok, state := st',
      log := (broadcastAllTargets st' roomId).map
        fun cl => (cl.channel, SseEvent.presenceList (getPresence st' roomId now)) }
  else { resp := Resp.notFound, state := st, log := [] }

/-- The `GET /api/rooms/:id/stream` handler at connection time: 404 when the
canonicalized room id does not exist; else the user name defaults to
`'Unknown'` (`req.query.userName || 'Unknown'`), the client is registered,
an `init` event holding only the file map is written to the new channel, and
the live presence list is broadcast to every subscriber of the room, the new
one included. -/
def streamHandler (st : ServerState) (rawId : String)
    (userNameQ : Option String) (ch : Nat) (now : Int) : HandlerOut :=
  let roomId := canon rawId
  if roomExists st roomId then
    let userName := jsOr userNameQ "Unknown"
    let client : Subscriber := { roomId := roomId, userName := userName, channel := ch }
    let st' := { st with clients := st.clients ++ [client] }
    { resp := Resp.ok, state := st',
      log := (ch, SseEvent.initSnap (listFiles st' roomId)) ::
        (broadcastAllTargets st' roomId).map
          fun cl => (cl.channel, SseEvent.presenceList (getPresence st' roomId now)) }
  else { resp := Resp.notFound, state := st, log := [] }

/-- Modelled from the spec: the repository implements only the SSE push
transport; no PollSync route or `listChangedSince` query exists in
src/server.js.  Following spec sections 4.2 and 4.5, `listChangedSince`
returns every file of the room whose `updatedAt` is strictly greater than the
client-supplied cursor. -/
def listChangedSince (st : ServerState) (room : String) (t : Int) :
    List FileRec :=
  st.files.filter fun f => f.roomId == room && t < f.updatedAt

/-- Modelled from the spec: `poll(roomId, sinceTimestamp)` returns the
changed files, the live presence list, and `serverTime = now` for use as the
next cursor. -/
def poll (st : ServerState) (room : String) (since now : Int) :
    List FileRec × List (String × String × String) × Int :=
  (listChangedSince st room since, getPresence st room now, now)

/-- The first file row matching a (room, filename) key. -/
def fileLookup (st : ServerState) (room fn : String) : Option FileRec :=
  st.files.find? (matchKey room fn)

/-- The uniqueness invariant of the `files` table:
`UNIQUE(room_id, filename)`. -/
def filesUnique (st : ServerState) : Prop :=
  st.files.Pairwise fun f g => f.roomId ≠ g.roomId ∨ f.filename ≠ g.filename

instance : DecidablePred filesUnique := fun st =>
  List.instDecidablePairwise st.files

/-- The empty server: no rooms, files, presence or subscribers. -/
def stEmpty : ServerState :=
  { rooms := [], files := [], presence := [], clients := [] }

/-- A populated demo server: one room with one file, one live presence entry
and one subscriber. -/
def stDemo : ServerState :=
  { rooms := ["MONK-AAAA"],
    files := [{ roomId := "MONK-AAAA", filename := "main.txt",
                content := "hello", updatedAt := 100 }],
    presence := [{ roomId := "MONK-AAAA", userName := "Ann", userColor := "red",
                   editingFile := "main.txt", lastSeen := 195 }],
    clients := [{ roomId := "MONK-AAAA", userName := "Ann", channel := 1 }] }

/-- A room holding two files, for rename-collision scenarios. -/
def stTwoFiles : ServerState :=
  { rooms := ["ROOM"],
    files := [{ roomId := "ROOM", filename := "a.txt", content := "ha", updatedAt := 100 },
              { roomId := "ROOM", filename := "b.txt", content := "hb", updatedAt := 100 }],
    presence := [], clients := [] }

/-- A room with a single anonymous subscriber registered under the default
name Unknown. -/
def stAnon : ServerState :=
  { rooms := ["ROOM"], files := [], presence := [],
    clients := [{ roomId := "ROOM", userName := "Unknown", channel := 1 }] }

/-! ## Helper lemmas -/

theorem matchKey_iff (room fn : String) (f : FileRec) :
    matchKey room fn f = true ↔ f.roomId = room ∧ f.filename = fn := by
  simp [matchKey]

theorem matchUser_iff (room user : String) (p : PresenceRec) :
    matchUser room user p = true ↔ p.roomId = room ∧ p.userName = user := by
  simp [matchUser]

theorem any_of_find?_eq_some {α : Type} {p : α → Bool} {l : List α} {a : α}
    (h : l.find? p = some a) : l.any p = true :=
  List.any_eq_true.mpr ⟨a, List.mem_of_find?_eq_some h, List.find?_some h⟩

theorem any_eq_false_of_find?_eq_none {α : Type} {p : α → Bool} {l : List α}
    (h : l.find? p = none) : l.any p = false :=
  List.any_eq_false.mpr (List.find?_eq_none.mp h)

theorem find?_map_update (rows : List FileRec) (room fn c : String) (t : Int)
    (h : rows.any (matchKey room fn) = true) :
    (rows.map (fun f =>
        if matchKey room fn f then { f with content := c, updatedAt := t }
        else f)).find? (matchKey room fn)
      = some { roomId := room, filename := fn, content := c, updatedAt := t } := by
  induction rows with
  | nil => simp at h
  | cons a rows ih =>
    rw [List.map_cons]
    by_cases ha : matchKey room fn a = true
    · obtain ⟨h1, h2⟩ := (matchKey_iff room fn a).mp ha
      rw [if_pos ha]
      rw [List.find?_cons_of_pos _ (by simp [matchKey, h1, h2])]
      cases a
      simp_all
    · rw [if_neg ha, List.find?_cons_of_neg _ ha]
      rw [List.any_cons] at h
      simp only [ha, Bool.false_or] at h
      exact ih h

theorem fileLookup_upsertFile (st : ServerState) (room fn c : String) (t : Int) :
    fileLookup (upsertFile st room fn c t) room fn
      = some { roomId := room, filename := fn, content := c, updatedAt := t } := by
  unfold fileLookup upsertFile upsertRows
  by_cases h : st.files.any (matchKey room fn) = true
  · simpa [h] using find?_map_update st.files room fn c t h
  · rw [if_neg h]
    simp only [Bool.not_eq_true] at h
    rw [List.find?_append,
      List.find?_eq_none.mpr (fun a ha => by
        have := List.any_eq_false.mp h a ha
        simp [this])]
    simp [matchKey]

theorem mem_listFiles_of_fileLookup (st : ServerState) (room fn : String)
    (f : FileRec) (h : fileLookup st room fn = some f) :
    (fn, f.content) ∈ listFiles st room := by
  have hm := List.mem_of_find?_eq_some h
  have hp := List.find?_some h
  obtain ⟨h1, h2⟩ := (matchKey_iff room fn f).mp hp
  unfold listFiles
  refine List.mem_map.mpr ⟨f, ?_, by rw [h2]⟩
  exact List.mem_filter.mpr ⟨hm, by simp [h1]⟩

theorem mem_upsertPresenceRows (rows : List PresenceRec)
    (room user color editing : String) (now : Int) :
    ({ roomId := room, userName := user, userColor := color,
       editingFile := editing, lastSeen := now } : PresenceRec)
      ∈ upsertPresenceRows rows room user color editing now := by
  unfold upsertPresenceRows
  by_cases h : rows.any (matchUser room user) = true
  · rw [if_pos h]
    rcases List.any_eq_true.mp h with ⟨p, hp, hmp⟩
    obtain ⟨h1, h2⟩ := (matchUser_iff room user p).mp hmp
    refine List.mem_map.mpr ⟨p, hp, ?_⟩
    rw [if_pos hmp]
    cases p
    simp_all
  · rw [if_neg h]
    simp

theorem upd_keeps_roomId (room fn c : String) (t : Int) (a : FileRec) :
    ((if matchKey room fn a then { a with content := c, updatedAt := t }
      else a) : FileRec).roomId = a.roomId := by
  by_cases h : matchKey room fn a = true <;> simp [h]

theorem upd_keeps_filename (room fn c : String) (t : Int) (a : FileRec) :
    ((if matchKey room fn a then { a with content := c, updatedAt := t }
      else a) : FileRec).filename = a.filename := by
  by_cases h : matchKey room fn a = true <;> simp [h]

theorem filesUnique_upsertFile (st : ServerState) (room fn c : String)
    (t : Int) (h : filesUnique st) : filesUnique (upsertFile st room fn c t) := by
  unfold filesUnique at *
  unfold upsertFile upsertRows
  by_cases ha : st.files.any (matchKey room fn) = true
  · rw [if_pos ha]
    simp only []
    rw [List.pairwise_map]
    refine h.imp ?_
    intro a b hab
    rcases hab with h1 | h1
    · exact Or.inl (by rw [upd_keeps_roomId, upd_keeps_roomId]; exact h1)
    · exact Or.inr (by rw [upd_keeps_filename, upd_keeps_filename]; exact h1)
  · rw [if_neg ha]
    simp only [Bool.not_eq_true] at ha
    rw [List.pairwise_append]
    refine ⟨h, by simp, ?_⟩
    intro a hmem b hb
    rw [List.mem_singleton] at hb
    subst hb
    have hak : matchKey room fn a = false :=
      Bool.not_eq_true _ ▸ List.any_eq_false.mp ha a hmem
    by_cases h1 : a.roomId = room
    · refine Or.inr fun h2 => ?_
      rw [(matchKey_iff room fn a).mpr ⟨h1, h2⟩] at hak
      simp at hak
    · exact Or.inl h1

theorem filesUnique_deleteFile (st : ServerState) (room fn : String)
    (h : filesUnique st) : filesUnique (deleteFile st room fn) :=
  List.Pairwise.sublist (List.filter_sublist st.files) h

theorem filesUnique_renameFile (st : ServerState) (room oldName newName : String)
    (now : Int) (st2 : ServerState) (h : filesUnique st)
    (hr : renameFile st room oldName newName now = Except.ok st2) :
    filesUnique st2 := by
  unfold renameFile at hr
  by_cases h1 : st.files.any (matchKey room oldName) = true
  · rw [if_pos h1] at hr
    by_cases h2 : (newName != oldName && st.files.any (matchKey room newName)) = true
    · rw [if_pos h2] at hr
      exact absurd hr (by simp)
    · rw [if_neg h2] at hr
      injection hr with hr
      subst hr
      unfold filesUnique at *
      simp only []
      rw [List.pairwise_map]
      rw [Bool.and_eq_true, not_and_or] at h2
      rcases h2 with h2 | h2
      · -- newName = oldName: the mapped function preserves both key fields
        have hEq : newName = oldName := by
          simpa [bne_iff_ne] using h2
        refine h.imp_of_mem ?_
        intro a b ha hb hab
        by_cases haa : matchKey room oldName a = true <;>
          by_cases hbb : matchKey room oldName b = true <;>
            rcases hab with h3 | h3
        · exact Or.inl (by simpa [haa, hbb] using h3)
        · refine Or.inr ?_
          obtain ⟨_, ha2⟩ := (matchKey_iff room oldName a).mp haa
          obtain ⟨_, hb2⟩ := (matchKey_iff room oldName b).mp hbb
          simp only [haa, hbb, if_true]
          simp [hEq, ha2, hb2] at h3
        · exact Or.inl (by simpa [haa, hbb] using h3)
        · refine Or.inr ?_
          obtain ⟨_, ha2⟩ := (matchKey_iff room oldName a).mp haa
          simpa [haa, hbb, hEq, ha2] using h3
        · exact Or.inl (by simpa [haa, hbb] using h3)
        · refine Or.inr ?_
          obtain ⟨_, hb2⟩ := (matchKey_iff room oldName b).mp hbb
          simpa [haa, hbb, hEq, hb2] using h3
        · exact Or.inl (by simpa [haa, hbb] using h3)
        · exact Or.inr (by simpa [haa, hbb] using h3)
      · -- no row of the room is already named newName
        have hno : st.files.any (matchKey room newName) = false :=
          Bool.not_eq_true _ ▸ h2
        refine h.imp_of_mem ?_
        intro a b ha hb hab
        by_cases haa : matchKey room oldName a = true <;>
          by_cases hbb : matchKey room oldName b = true
        · -- both rows carry the key (room, oldName): impossible, they differ
          obtain ⟨ha1, ha2⟩ := (matchKey_iff room oldName a).mp haa
          obtain ⟨hb1, hb2⟩ := (matchKey_iff room oldName b).mp hbb
          rcases hab with h3 | h3
          · exact absurd (ha1.trans hb1.symm) h3
          · exact absurd (ha2.trans hb2.symm) h3
        · -- a is renamed, b untouched: b cannot be (room, newName)
          obtain ⟨ha1, _⟩ := (matchKey_iff room oldName a).mp haa
          by_cases hb1 : b.roomId = a.roomId
          · refine Or.inr ?_
            have hbk : matchKey room newName b = false :=
              Bool.not_eq_true _ ▸ List.any_eq_false.mp hno b hb
            intro hcontra
            rw [(matchKey_iff room newName b).mpr
              ⟨hb1.trans ha1, by simpa [haa, hbb] using hcontra.symm⟩] at hbk
            simp at hbk
          · exact Or.inl (by simpa [haa, hbb] using fun hh => hb1 hh.symm)
        · -- b is renamed, a untouched: a cannot be (room, newName)
          obtain ⟨hb1, _⟩ := (matchKey_iff room oldName b).mp hbb
          by_cases ha1 : a.roomId = b.roomId
          · refine Or.inr ?_
            have hak : matchKey room newName a = false :=
              Bool.not_eq_true _ ▸ List.any_eq_false.mp hno a ha
            intro hcontra
            rw [(matchKey_iff room newName a).mpr
              ⟨ha1.trans hb1, by simpa [haa, hbb] using hcontra⟩] at hak
            simp at hak
          · exact Or.inl (by simpa [haa, hbb] using ha1)
        · -- neither row touched
          rcases hab with h3 | h3
          · exact Or.inl (by simpa [haa, hbb] using h3)
          · exact Or.inr (by simpa [haa, hbb] using h3)
  · rw [if_neg h1] at hr
    injection hr with hr
    subst hr
    exact h

theorem renameFile_collision (st : ServerState) (room oldName newName : String)
    (now : Int) (h1 : (fileLookup st room oldName).isSome = true)
    (h2 : (fileLookup st room newName).isSome = true) (hne : oldName ≠ newName) :
    ∃ e, renameFile st room oldName newName now = Except.error e := by
  unfold fileLookup at h1 h2
  rw [List.find?_isSome] at h1 h2
  have ha1 : st.files.any (matchKey room oldName) = true := List.any_eq_true.mpr h1
  have ha2 : st.files.any (matchKey room newName) = true := List.any_eq_true.mpr h2
  unfold renameFile
  rw [if_pos ha1, if_pos (by simp [bne_iff_ne, ha2]; exact fun hh => hne hh.symm)]
  exact ⟨_, rfl⟩

/-! ## Claim theorems -/

/-- C1 (amended): after `upsertFile(room, filename, c1)` at time `t1` and
`upsertFile(room, filename, c2)` at time `t2`, the stored row is exactly
(room, filename, c2, t2) and `listFiles(room)` maps the filename to `c2`;
`updatedAt` moves from `t1` to `t2`, hence strictly increases whenever the
second upsert carries a strictly later timestamp.  The unamended strict
increase fails because `strftime('%s','now')` has one-second resolution, so
two upserts within the same second share a timestamp. -/
theorem C1_upsert_last_write_wins (st : ServerState) (room fn c1 c2 : String)
    (t1 t2 : Int) (h : t1 < t2) :
    fileLookup (upsertFile (upsertFile st room fn c1 t1) room fn c2 t2) room fn
      = some { roomId := room, filename := fn, content := c2, updatedAt := t2 }
    ∧ (fn, c2) ∈ listFiles (upsertFile (upsertFile st room fn c1 t1) room fn c2 t2) room
    ∧ fileLookup (upsertFile st room fn c1 t1) room fn
      = some { roomId := room, filename := fn, content := c1, updatedAt := t1 }
    ∧ t1 < t2 := by
  refine ⟨fileLookup_upsertFile _ _ _ _ _, ?_, fileLookup_upsertFile _ _ _ _ _, h⟩
  exact mem_listFiles_of_fileLookup _ _ _ _ (fileLookup_upsertFile _ _ _ _ _)

/-- C1 counterexample: two upserts of the same (room, filename) at the same
wall-clock second (equal `strftime('%s','now')` values) leave the second
content in place but do not strictly increase `updatedAt`: it stays equal. -/
theorem C1_counterexample :
    (fileLookup (upsertFile (upsertFile stEmpty "ROOM" "f.txt" "one" 100)
        "ROOM" "f.txt" "two" 100) "ROOM" "f.txt").map FileRec.content = some "two"
    ∧ (fileLookup (upsertFile (upsertFile stEmpty "ROOM" "f.txt" "one" 100)
        "ROOM" "f.txt" "two" 100) "ROOM" "f.txt").map FileRec.updatedAt
      = (fileLookup (upsertFile stEmpty "ROOM" "f.txt" "one" 100)
        "ROOM" "f.txt").map FileRec.updatedAt := by
  decide

/-- C1 witness: the amended law at a concrete input with t1 = 100 < 101 = t2. -/
theorem C1_witness :
    fileLookup (upsertFile (upsertFile stEmpty "ROOM" "f.txt" "one" 100)
        "ROOM" "f.txt" "two" 101) "ROOM" "f.txt"
      = some { roomId := "ROOM", filename := "f.txt", content := "two", updatedAt := 101 }
    ∧ ("f.txt", "two") ∈ listFiles (upsertFile (upsertFile stEmpty "ROOM" "f.txt" "one" 100)
        "ROOM" "f.txt" "two" 101) "ROOM"
    ∧ fileLookup (upsertFile stEmpty "ROOM" "f.txt" "one" 100) "ROOM" "f.txt"
      = some { roomId := "ROOM", filename := "f.txt", content := "one", updatedAt := 100 }
    ∧ (100 : Int) < 101 :=
  C1_upsert_last_write_wins stEmpty "ROOM" "f.txt" "one" "two" 100 101 (by decide)

/-- C3: `listChangedSince(room, t)` returns exactly the room files with
`updatedAt > t`, and re-polling with the `serverTime` cursor returned by
`poll` with no intervening writes (so every stored timestamp is at most that
serverTime) returns the empty set.  The poll transport is modelled from the
spec, as src/server.js implements only the SSE push transport. -/
theorem C3_listChangedSince_exact (st : ServerState) (room : String)
    (t since now : Int) :
    (∀ f, f ∈ listChangedSince st room t ↔
        f ∈ st.files ∧ f.roomId = room ∧ t < f.updatedAt)
    ∧ ((∀ f ∈ st.files, f.updatedAt ≤ now) →
        listChangedSince st room (poll st room since now).2.2 = []) := by
  constructor
  · intro f
    simp [listChangedSince, List.mem_filter, and_assoc]
  · intro hb
    have hsrv : (poll st room since now).2.2 = now := rfl
    rw [hsrv]
    unfold listChangedSince
    rw [List.filter_eq_nil_iff]
    intro f hf
    simp only [Bool.and_eq_true, decide_eq_true_eq, not_and]
    intro _
    exact not_lt.mpr (hb f hf)

/-- C3 witness: on the demo state, re-polling with the returned serverTime
yields no changed files. -/
theorem C3_witness :
    listChangedSince stDemo "MONK-AAAA" (poll stDemo "MONK-AAAA" 0 200).2.2 = [] :=
  (C3_listChangedSince_exact stDemo "MONK-AAAA" 0 0 200).2 (by decide)

/-- C4 (amended): a room id that does not resolve to an existing room after
uppercase canonicalization yields NotFound for file upsert, file listing,
presence upsert and stream subscription; but the file delete and file rename
routes perform no room-existence check at all: delete always acknowledges
success and rename never reports NotFound. -/
theorem C4_notFound_surfaced (st : ServerState)
    (rawId fn oldName newName user color : String)
    (content userName editing : Option String) (ch : Nat) (now : Int)
    (h : roomExists st (canon rawId) = false) :
    (postFileHandler st rawId fn content userName now).resp = Resp.notFound
    ∧ (listFilesHandler st rawId).1 = Resp.notFound
    ∧ (presenceHandler st rawId user color editing now).resp = Resp.notFound
    ∧ (streamHandler st rawId userName ch now).resp = Resp.notFound
    ∧ (deleteFileHandler st rawId fn userName).resp = Resp.ok
    ∧ (renameFileHandler st rawId oldName newName userName now).resp ≠ Resp.notFound := by
  refine ⟨?_, ?_, ?_, ?_, ?_, ?_⟩
  · simp [postFileHandler, h]
  · simp [listFilesHandler, h]
  · simp [presenceHandler, h]
  · simp [streamHandler, h]
  · simp [deleteFileHandler]
  · unfold renameFileHandler
    cases hE : renameFile st (canon rawId) oldName newName now <;> simp [hE]

/-- C4 counterexample: on the empty server the room NOPE does not exist, yet
the delete and rename routes both answer with a success acknowledgment
instead of surfacing NotFound. -/
theorem C4_counterexample :
    roomExists stEmpty (canon "NOPE") = false
    ∧ (deleteFileHandler stEmpty "NOPE" "a.txt" none).resp = Resp.ok
    ∧ (renameFileHandler stEmpty "NOPE" "a.txt" "b.txt" none 100).resp = Resp.ok := by
  decide

/-- C4 witness: the amended NotFound behavior at a concrete input. -/
theorem C4_witness :
    (postFileHandler stEmpty "NOPE" "f" none none 0).resp = Resp.notFound
    ∧ (listFilesHandler stEmpty "NOPE").1 = Resp.notFound
    ∧ (presenceHandler stEmpty "NOPE" "u" "c" none 0).resp = Resp.notFound
    ∧ (streamHandler stEmpty "NOPE" none 0 0).resp = Resp.notFound
    ∧ (deleteFileHandler stEmpty "NOPE" "f" none).resp = Resp.ok
    ∧ (renameFileHandler stEmpty "NOPE" "a" "b" none 0).resp ≠ Resp.notFound :=
  C4_notFound_surfaced stEmpty "NOPE" "f" "a" "b" "u" "c" none none none 0 0 (by decide)

/-- C5: a presence entry is live immediately after `upsertPresence` (which
stores `lastSeen = now`), an entry is in the live list exactly when
`now - lastSeen < TTL` (so it is absent as soon as `now - lastSeen ≥ TTL`,
with no grace period), and the TTL constant is 15 seconds, inside the spec's
10 to 15 second range. -/
theorem C5_presence_ttl (st : ServerState) (room user color editing : String)
    (now : Int) (p : PresenceRec) :
    ({ roomId := room, userName := user, userColor := color,
       editingFile := editing, lastSeen := now } : PresenceRec)
      ∈ livePresence (upsertPresence st room user color editing now) room now
    ∧ (user, color, editing) ∈
        getPresence (upsertPresence st room user color editing now) room now
    ∧ (p ∈ livePresence st room now ↔
        p ∈ st.presence ∧ p.roomId = room ∧ now - p.lastSeen < presenceTTL)
    ∧ presenceTTL = 15 ∧ 10 ≤ presenceTTL := by
  have h1 : ({ roomId := room, userName := user, userColor := color,
               editingFile := editing, lastSeen := now } : PresenceRec)
          ∈ livePresence (upsertPresence st room user color editing now) room now := by
    unfold livePresence upsertPresence
    refine List.mem_filter.mpr
      ⟨mem_upsertPresenceRows st.presence room user color editing now, ?_⟩
    simp only [Bool.and_eq_true, beq_iff_eq, decide_eq_true_eq, presenceTTL,
      beq_self_eq_true, true_and]
    omega
  refine ⟨h1, List.mem_map.mpr ⟨_, h1, rfl⟩, ?_, rfl, by decide⟩
  unfold livePresence
  rw [List.mem_filter]
  simp only [Bool.and_eq_true, beq_iff_eq, decide_eq_true_eq, presenceTTL,
    and_congr_right_iff]
  intro _ _
  omega

/-- C6: `broadcast` with sender name U delivers to exactly the subscribers of
the room whose user name differs from U (so never to a subscriber registered
under U), while `broadcastAll`, used for presence events, delivers to every
subscriber of the room, the originator included. -/
theorem C6_broadcast_exclusion (st : ServerState) (room userU : String)
    (c : Subscriber) :
    (c ∈ broadcastTargets st room (some userU) ↔
        c ∈ st.clients ∧ c.roomId = room ∧ c.userName ≠ userU)
    ∧ (c ∈ broadcastAllTargets st room ↔ c ∈ st.clients ∧ c.roomId = room) := by
  constructor
  · simp only [broadcastTargets, getRoomClients, List.mem_filter, List.filter_filter]
    simp [and_assoc]
    tauto
  · simp [broadcastAllTargets, getRoomClients, List.mem_filter]

/-- C7: renaming an existing file to a name not present in the room succeeds,
after which the listing contains the new name with the original content and
no entry under the old name; renaming a nonexistent old name matches zero
rows and leaves the state unchanged while still reporting success. -/
theorem C7_rename_semantics (st stb : ServerState) (room oldName newName : String)
    (now : Int) (f0 : FileRec)
    (hold : fileLookup st room oldName = some f0)
    (hnew : fileLookup st room newName = none)
    (hb : fileLookup stb room oldName = none) :
    (∃ st2, renameFile st room oldName newName now = Except.ok st2
      ∧ (newName, f0.content) ∈ listFiles st2 room
      ∧ ∀ c, (oldName, c) ∉ listFiles st2 room)
    ∧ renameFile stb room oldName newName now = Except.ok stb := by
  have ha : st.files.any (matchKey room oldName) = true := any_of_find?_eq_some hold
  have hno : st.files.any (matchKey room newName) = false :=
    any_eq_false_of_find?_eq_none hnew
  have hne : newName ≠ oldName := by
    intro hEq
    rw [hEq, hold] at hnew
    exact Option.noConfusion hnew
  constructor
  · refine ⟨{ st with files := st.files.map (fun f =>
        if matchKey room oldName f then { f with filename := newName, updatedAt := now }
        else f) }, ?_, ?_, ?_⟩
    · unfold renameFile
      rw [if_pos ha, if_neg (by rw [hno, Bool.and_false]; simp)]
    · have hm := List.mem_of_find?_eq_some hold
      obtain ⟨h1, h2⟩ := (matchKey_iff room oldName f0).mp (List.find?_some hold)
      unfold listFiles
      refine List.mem_map.mpr ⟨{ f0 with filename := newName, updatedAt := now }, ?_, rfl⟩
      refine List.mem_filter.mpr ⟨?_, by simp [h1]⟩
      refine List.mem_map.mpr ⟨f0, hm, ?_⟩
      rw [if_pos ((matchKey_iff room oldName f0).mpr ⟨h1, h2⟩)]
    · intro c hc
      unfold listFiles at hc
      rcases List.mem_map.mp hc with ⟨g, hg, hpair⟩
      rcases List.mem_filter.mp hg with ⟨hg2, hroom⟩
      rcases List.mem_map.mp hg2 with ⟨h0, h0mem, hg0⟩
      simp only [Prod.mk.injEq] at hpair
      by_cases hk : matchKey room oldName h0 = true
      · rw [if_pos hk] at hg0
        rw [← hg0] at hpair
        exact hne hpair.1
      · rw [if_neg hk] at hg0
        subst hg0
        exact hk ((matchKey_iff room oldName h0).mpr ⟨by simpa using hroom, hpair.1⟩)
  · unfold renameFile
    rw [if_neg (by rw [any_eq_false_of_find?_eq_none hb]; simp)]

/-- C7 witness: renaming main.txt to other.txt on the demo room, and a
zero-row rename on the empty server. -/
theorem C7_witness :
    (∃ st2, renameFile stDemo "MONK-AAAA" "main.txt" "other.txt" 300 = Except.ok st2
      ∧ ("other.txt", "hello") ∈ listFiles st2 "MONK-AAAA"
      ∧ ∀ c, ("main.txt", c) ∉ listFiles st2 "MONK-AAAA")
    ∧ renameFile stEmpty "MONK-AAAA" "main.txt" "other.txt" 300 = Except.ok stEmpty :=
  C7_rename_semantics stDemo stEmpty "MONK-AAAA" "main.txt" "other.txt" 300
    { roomId := "MONK-AAAA", filename := "main.txt", content := "hello", updatedAt := 100 }
    (by decide) (by decide) (by decide)

/-- C8: every FileStore mutation preserves the (roomId, filename) uniqueness
invariant of the files table, and a rename whose target name already exists
in the same room is rejected by the UNIQUE constraint: the statement raises
an error, the uncaught exception surfaces from the rename route as a 500
server error, and success is never reported, so no duplicate rows and no
silent merge can arise. -/
theorem C8_uniqueness_and_collision (st : ServerState)
    (room fn c oldName newName : String) (now : Int)
    (hu : filesUnique st) :
    filesUnique (upsertFile st room fn c now)
    ∧ filesUnique (deleteFile st room fn)
    ∧ (∀ st2, renameFile st room oldName newName now = Except.ok st2 → filesUnique st2)
    ∧ ((fileLookup st room oldName).isSome → (fileLookup st room newName).isSome →
        oldName ≠ newName → ∃ e, renameFile st room oldName newName now = Except.error e)
    ∧ (∀ rawId, canon rawId = room →
        (fileLookup st room oldName).isSome → (fileLookup st room newName).isSome →
        oldName ≠ newName →
        (renameFileHandler st rawId oldName newName none now).resp = Resp.serverError) := by
  refine ⟨filesUnique_upsertFile st room fn c now hu,
    filesUnique_deleteFile st room fn hu,
    fun st2 hr => filesUnique_renameFile st room oldName newName now st2 hu hr,
    fun h1 h2 hne => renameFile_collision st room oldName newName now h1 h2 hne, ?_⟩
  intro rawId hcanon h1 h2 hne
  obtain ⟨e, he⟩ := renameFile_collision st room oldName newName now h1 h2 hne
  unfold renameFileHandler
  simp only [hcanon, he]

/-- C8 witness: the invariant is preserved by an upsert on a two-file room,
and renaming a.txt onto the existing b.txt raises the constraint error. -/
theorem C8_witness :
    filesUnique (upsertFile stTwoFiles "ROOM" "c.txt" "x" 101)
    ∧ (∃ e, renameFile stTwoFiles "ROOM" "a.txt" "b.txt" 101 = Except.error e) := by
  have h := C8_uniqueness_and_collision stTwoFiles "ROOM" "c.txt" "x" "a.txt" "b.txt"
    101 (by decide)
  exact ⟨h.1, h.2.2.2.1 (by decide) (by decide) (by decide)⟩

/-- C9: after deleteFile the listing never contains the deleted filename,
deleting twice equals deleting once, deleting a name that is not stored
leaves the state unchanged, and the delete route always acknowledges with
ok, so deleting a nonexistent filename is a no-op rather than an error. -/
theorem C9_delete_idempotent (st : ServerState) (room fn rawId fn2 : String)
    (u : Option String) :
    (∀ c, (fn, c) ∉ listFiles (deleteFile st room fn) room)
    ∧ deleteFile (deleteFile st room fn) room fn = deleteFile st room fn
    ∧ (fileLookup st room fn = none → deleteFile st room fn = st)
    ∧ (deleteFileHandler st rawId fn2 u).resp = Resp.ok := by
  refine ⟨?_, ?_, ?_, rfl⟩
  · intro c hc
    unfold listFiles deleteFile at hc
    rcases List.mem_map.mp hc with ⟨g, hg, hpair⟩
    rcases List.mem_filter.mp hg with ⟨hg2, hroom⟩
    rcases List.mem_filter.mp hg2 with ⟨-, hnk⟩
    simp only [Prod.mk.injEq] at hpair
    rw [Bool.not_eq_true'] at hnk
    rw [(matchKey_iff room fn g).mpr ⟨by simpa using hroom, hpair.1⟩] at hnk
    exact Bool.noConfusion hnk
  · simp [deleteFile, List.filter_filter]
  · intro h
    unfold deleteFile
    have hself : st.files.filter (fun f => !matchKey room fn f) = st.files := by
      rw [List.filter_eq_self]
      intro a ha
      simp [List.find?_eq_none.mp h a ha]
    rw [hself]

/-- C9 witness: deleting from the empty server is a no-op and the delete
route acknowledges success even for a nonexistent room and file. -/
theorem C9_witness :
    deleteFile stEmpty "ROOM" "f.txt" = stEmpty
    ∧ (deleteFileHandler stEmpty "NOPE" "f.txt" none).resp = Resp.ok := by
  have h := C9_delete_idempotent stEmpty "ROOM" "f.txt" "NOPE" "f.txt" none
  exact ⟨h.2.2.1 (by decide), h.2.2.2⟩

/-- C10: a stream subscription with no user name (or an empty one) is
registered under the literal default name Unknown, and a broadcast that
excludes user name Unknown delivers to no subscriber registered under that
name, so all anonymous subscribers of a room share one identity. -/
theorem C10_default_unknown (st : ServerState) (rawId room : String) (ch : Nat)
    (now : Int) (c : Subscriber)
    (h : roomExists st (canon rawId) = true) (hc : c.userName = "Unknown") :
    jsOr none "Unknown" = "Unknown"
    ∧ jsOr (some "") "Unknown" = "Unknown"
    ∧ ({ roomId := canon rawId, userName := "Unknown", channel := ch } : Subscriber)
        ∈ (streamHandler st rawId none ch now).state.clients
    ∧ c ∉ broadcastTargets st room (some "Unknown") := by
  refine ⟨rfl, rfl, ?_, ?_⟩
  · simp [streamHandler, h, jsOr]
  · intro hmem
    rcases List.mem_filter.mp hmem with ⟨-, hcond⟩
    simp [hc] at hcond

/-- C10 witness: on a room holding one anonymous subscriber, a nameless
subscription registers as Unknown and a broadcast excluding Unknown skips
the anonymous subscriber. -/
theorem C10_witness :
    jsOr none "Unknown" = "Unknown"
    ∧ jsOr (some "") "Unknown" = "Unknown"
    ∧ ({ roomId := canon "room", userName := "Unknown", channel := 2 } : Subscriber)
        ∈ (streamHandler stAnon "room" none 2 200).state.clients
    ∧ ({ roomId := "ROOM", userName := "Unknown", channel := 1 } : Subscriber)
        ∉ broadcastTargets stAnon "ROOM" (some "Unknown") :=
  C10_default_unknown stAnon "room" "ROOM" 2 200
    { roomId := "ROOM", userName := "Unknown", channel := 1 } (by decide) rfl

/-- C2 (amended): on subscribing to an existing room, the first event written
to the new channel is the `init` snapshot, which carries the room's files
only; the live presence list is then sent immediately as a separate
`presence` event that is broadcast to every subscriber of the room — the new
channel included, but not that channel only — and both precede any later
incremental event on the channel. -/
theorem C2_subscribe_snapshot (st : ServerState) (rawId : String)
    (q : Option String) (ch : Nat) (now : Int)
    (h : roomExists st (canon rawId) = true) :
    (streamHandler st rawId q ch now).log
      = (ch, SseEvent.initSnap (listFiles st (canon rawId))) ::
        (getRoomClients (streamHandler st rawId q ch now).state (canon rawId)).map
          (fun cl => (cl.channel, SseEvent.presenceList (getPresence st (canon rawId) now)))
    ∧ ({ roomId := canon rawId, userName := jsOr q "Unknown", channel := ch } : Subscriber)
        ∈ getRoomClients (streamHandler st rawId q ch now).state (canon rawId) := by
  constructor
  · simp only [streamHandler, h, if_true, broadcastAllTargets]
    simp
    exact ⟨rfl, fun a _ => rfl⟩
  · simp [streamHandler, h, getRoomClients, List.mem_filter]

/-- C2 counterexample: on the demo state the first event delivered to the new
channel 2 is an `init` snapshot carrying only the file map and no presence
data, and the subscribe-time presence snapshot is also written to the
pre-existing channel 1, so no subscribe-time event is both a full files plus
presence snapshot and delivered to the new channel only. -/
theorem C2_counterexample :
    ((streamHandler stDemo "MONK-AAAA" (some "Ben") 2 200).log.filter
        (fun e => e.1 == 2)).head? = some (2, SseEvent.initSnap [("main.txt", "hello")])
    ∧ (1, SseEvent.presenceList [("Ann", "red", "main.txt")])
        ∈ (streamHandler stDemo "MONK-AAAA" (some "Ben") 2 200).log := by
  decide

/-- C2 witness: the amended subscribe behavior on the demo room. -/
theorem C2_witness :
    (streamHandler stDemo "MONK-AAAA" (some "Ben") 2 200).log
      = (2, SseEvent.initSnap (listFiles stDemo (canon "MONK-AAAA"))) ::
        (getRoomClients (streamHandler stDemo "MONK-AAAA" (some "Ben") 2 200).state
            (canon "MONK-AAAA")).map
          (fun cl => (cl.channel, SseEvent.presenceList (getPresence stDemo (canon "MONK-AAAA") 200)))
    ∧ ({ roomId := canon "MONK-AAAA", userName := jsOr (some "Ben") "Unknown",
         channel := 2 } : Subscriber)
        ∈ getRoomClients (streamHandler stDemo "MONK-AAAA" (some "Ben") 2 200).state
            (canon "MONK-AAAA") :=
  C2_subscribe_snapshot stDemo "MONK-AAAA" (some "Ben") 2 200 (by decide)

end MonkeySkript
